import Mathlib

/-!
Verification of the workout-plan generator of `conegliano_utilities`
(`conegliano_utilities/workout.py`, class `WorkoutGenerator`).

The Python code is shallowly embedded as follows:

* A dataframe row becomes a `Record` (the source spells the difficulty
  column `diffucility`; we keep that spelling).
* `pd.DataFrame` catalogs become `List Record`; the raw frame handed to the
  constructor is a `RawFrame` carrying its column names and its rows, so the
  column-validation of `_validate_dataframe` can be expressed.
* Difficulties, targets and tolerances are `Rat` (the code only adds,
  divides and compares them, which is exact here).
* All randomness (`random.choices`, `random.choice`) is an explicit oracle
  argument: an `Oracle` maps an attempt index and a slot index to a natural
  number, which is reduced modulo the population size, exactly as a uniform
  index draw.  Theorems quantify over every oracle, hence over every
  possible sequence of random draws.
* Python exceptions become `Except String`; `print` side effects and the
  `debug` flag are dropped (they do not affect any returned value).
* `list(set(xs))` is modelled as `xs.dedup`; Python's set iteration order is
  unspecified, and every property proven below about a deduplicated list is
  insensitive to which duplicate survives.
* `pd.unique` (which keeps the first occurrence, in order) is modelled by
  `pdUnique`.
-/

namespace Workout

/-- One row of the exercise catalog (columns `exercise`, `area`,
`diffucility` of the dataframe). -/
structure Record where
  exercise : String
  area : String
  diffucility : Rat
deriving DecidableEq, Repr

/-- A random source: attempt index ↦ slot index ↦ drawn natural number.
`random.choices(pop, k)` on attempt `t` reads slots `0..k-1` of `g t` and
reduces each modulo `pop.length`. -/
abbrev Oracle := Nat → Nat → Nat

/-- Helper of `pdUnique`: keep each value the first time it appears,
skipping values already `seen`. -/
def pdUniqueAux (seen : List String) : List String → List String
  | [] => []
  | a :: l =>
    if seen.contains a then pdUniqueAux seen l
    else a :: pdUniqueAux (a :: seen) l

/-- `pd.unique`: distinct values in order of first occurrence. -/
def pdUnique (l : List String) : List String := pdUniqueAux [] l

/-- Mean of the `diffucility` column of a list of rows
(`Series.mean()`; callers guard against the empty case, where pandas
would produce `NaN`). -/
def ratMean (rows : List Record) : Rat :=
  (rows.map (·.diffucility)).sum / rows.length

/-- The raw dataframe handed to `WorkoutGenerator.__init__`: its column
names together with its rows. -/
structure RawFrame where
  columns : List String
  records : List Record

/-- The generator instance: it owns a copy of the (validated) dataframe. -/
structure WorkoutGenerator where
  df : List Record
deriving DecidableEq, Repr

/-- The `required_columns` list of `_validate_dataframe`. -/
def required_columns : List String := ["exercise", "area", "diffucility"]

/-- `WorkoutGenerator._validate_dataframe`: missing required columns raise,
then an empty dataframe raises. -/
def validate_dataframe (f : RawFrame) : Except String Unit :=
  if !(required_columns.filter fun c => !(f.columns.contains c)).isEmpty then
    .error ("Dataframe missing required columns: " ++
      toString (required_columns.filter fun c => !(f.columns.contains c)))
  else if f.records.isEmpty then
    .error "Dataframe cannot be empty"
  else
    .ok ()

/-- `WorkoutGenerator.__init__`: copy the dataframe and validate it. -/
def WorkoutGenerator.make (f : RawFrame) : Except String WorkoutGenerator :=
  match validate_dataframe f with
  | .error e => .error e
  | .ok _ => .ok ⟨f.records⟩

/-- `self.df.area.unique()` as a list. -/
def availableAreas (w : WorkoutGenerator) : List String :=
  pdUnique (w.df.map (·.area))

/-- The message of the `ValueError` raised by `get_exercises` for an
unknown area; it lists the valid areas (quoting is elided). -/
def unknownAreaMessage (area : String) (available : List String) : String :=
  s!"Area {area} not found. Available areas: {toString available}"

/-- The message of the `ValueError` raised by
`get_random_exercises_with_area_coverage` when the requested amount is
below the number of areas. -/
def insufficientCountMessage (k numAreas : Nat) : String :=
  s!"exercise_amount ({k}) must be >= number of areas ({numAreas})"

/-- `random.choices(names, k=k)` driven by one attempt's slot picks:
slot `i` selects index `pick i % names.length`.  The `""` default of
`getD` is unreachable whenever `names` is nonempty. -/
def drawChoices (names : List String) (k : Nat) (pick : Nat → Nat) : List String :=
  (List.range k).map fun i => names.getD (pick i % names.length) ""

/-- The body of one iteration of the 1000-attempt loop of `get_exercises`:
reject the draw if it contains duplicates (`len(set(exercises)) <
exercise_amount`), otherwise accept it when the mean difficulty of the
matching rows of the area subset is within tolerance.  An empty row match
gives pandas `NaN`, whose comparison is false, hence a rejection. -/
def selectAttempt (localRecs : List Record) (difficulty tolerance : Rat) (k : Nat)
    (draw : List String) : Option (List String) :=
  if draw.dedup.length < k then none
  else if (localRecs.filter fun rec => draw.contains rec.exercise).isEmpty then none
  else if |ratMean (localRecs.filter fun rec => draw.contains rec.exercise) - difficulty|
      ≤ tolerance then some draw
  else none

/-- The `for attempt in range(1000)` loop of `get_exercises`: the first
accepted draw, if any. -/
def selectByAreaLoop (localRecs : List Record) (difficulty tolerance : Rat) (k : Nat)
    (g : Oracle) : Option (List String) :=
  (List.range 1000).findSome? fun t =>
    selectAttempt localRecs difficulty tolerance k
      (drawChoices (localRecs.map (·.exercise)) k (g t))

/-- `WorkoutGenerator.get_exercises(area, difficulty, exercise_amount,
tolerance)`:  unknown area raises; too few records in the area returns all
of them padded with `""`; otherwise up to 1000 sampling attempts, and
`exercise_amount` copies of `""` on exhaustion. -/
def get_exercises (w : WorkoutGenerator) (area : String) (difficulty : Rat)
    (exercise_amount : Nat) (tolerance : Rat) (g : Oracle) :
    Except String (List String) :=
  if !(availableAreas w).contains area then
    .error (unknownAreaMessage area (availableAreas w))
  else
    let localRecs := w.df.filter fun rec => rec.area == area
    if localRecs.length < exercise_amount then
      .ok (localRecs.map (·.exercise) ++
        List.replicate (exercise_amount - localRecs.length) "")
    else
      match selectByAreaLoop localRecs difficulty tolerance exercise_amount g with
      | some r => .ok r
      | none => .ok (List.replicate exercise_amount "")

/-- The `for area in areas` part of one draw of
`get_random_exercises_with_area_coverage`: one `random.choice` per area,
taken from the area's records when nonempty (slot `j` of the oracle
drives area number `j`). -/
def coveragePerArea (df : List Record) (pick : Nat → Nat) : List String :=
  (pdUnique (df.map (·.area))).enum.filterMap fun p =>
    if ((df.filter fun rec => rec.area == p.2).map (·.exercise)).isEmpty then none
    else some (((df.filter fun rec => rec.area == p.2).map (·.exercise)).getD
      (pick p.1 % ((df.filter fun rec => rec.area == p.2).map (·.exercise)).length) "")

/-- One whole draw of `get_random_exercises_with_area_coverage` (also the
construction used by its fallback): the per-area picks, then
`random.choices` over the full catalog for the remaining slots (oracle
slots starting at the number of areas). -/
def coverageDraw (df : List Record) (k : Nat) (pick : Nat → Nat) : List String :=
  coveragePerArea df pick ++
    (List.range (k - (coveragePerArea df pick).length)).map fun i =>
      (df.map (·.exercise)).getD
        (pick ((pdUnique (df.map (·.area))).length + i) % (df.map (·.exercise)).length) ""

/-- The accept test of one attempt of
`get_random_exercises_with_area_coverage`: deduplicate, reject if fewer
than `k` distinct names, otherwise accept when the mean difficulty of the
matching catalog rows is within tolerance, returning the first `k`
distinct names. -/
def coverageAttempt (df : List Record) (difficulty tolerance : Rat) (k : Nat)
    (draw : List String) : Option (List String) :=
  if draw.dedup.length < k then none
  else if (df.filter fun rec => draw.dedup.contains rec.exercise).isEmpty then none
  else if |ratMean (df.filter fun rec => draw.dedup.contains rec.exercise) - difficulty|
      ≤ tolerance then some (draw.dedup.take k)
  else none

/-- The 1000-attempt loop of `get_random_exercises_with_area_coverage`. -/
def coverageLoop (df : List Record) (difficulty tolerance : Rat) (k : Nat)
    (g : Oracle) : Option (List String) :=
  (List.range 1000).findSome? fun t =>
    coverageAttempt df difficulty tolerance k (coverageDraw df k (g t))

/-- The exhaustion fallback of `get_random_exercises_with_area_coverage`:
rebuild one per-area pick plus random fill (fresh draws, modelled by
attempt index 1000 of the oracle), deduplicate and truncate — without any
difficulty test. -/
def coverageFallback (df : List Record) (k : Nat) (pick : Nat → Nat) : List String :=
  ((coverageDraw df k pick).dedup).take k

/-- `WorkoutGenerator.get_random_exercises_with_area_coverage(difficulty,
exercise_amount, tolerance)`.  A request below the number of areas raises
`ValueError`; on an empty catalog with a positive request the first
`random.choices` call over the empty population raises `IndexError`
(modelled directly as the error branch). -/
def get_random_exercises_with_area_coverage (w : WorkoutGenerator) (difficulty : Rat)
    (exercise_amount : Nat) (tolerance : Rat) (g : Oracle) :
    Except String (List String) :=
  let areas := availableAreas w
  if exercise_amount < areas.length then
    .error (insufficientCountMessage exercise_amount areas.length)
  else if w.df.isEmpty && decide (0 < exercise_amount) then
    .error "IndexError: cannot choose from an empty sequence"
  else
    match coverageLoop w.df difficulty tolerance exercise_amount g with
    | some r => .ok r
    | none => .ok (coverageFallback w.df exercise_amount (g 1000))

/-- `WorkoutGenerator.get_area_allocations(total_exercises, more_abs)`.
`total_exercises` is an `Int`, and `//` and `%` are Python's floor
division and modulus, which agree with Lean's euclidean `Int` division for
the positive divisor `len(areas)`.  The returned association list models
the Python dict in insertion order. -/
def get_area_allocations (w : WorkoutGenerator) (total_exercises : Int)
    (more_abs : Bool) : List (String × Int) :=
  let areas := availableAreas w
  if more_abs && areas.contains "Abs" then
    let remaining := total_exercises - 1
    let base := remaining / (areas.length : Int)
    let rem := remaining % (areas.length : Int)
    areas.enum.map fun p =>
      (p.2, if p.2 == "Abs" then base + 1 + (if (p.1 : Int) < rem then 1 else 0)
            else base + (if (p.1 : Int) < rem then 1 else 0))
  else
    let base := total_exercises / (areas.length : Int)
    let rem := total_exercises % (areas.length : Int)
    areas.enum.map fun p =>
      (p.2, base + (if (p.1 : Int) < rem then 1 else 0))

/-- `WorkoutGenerator._calculate_mean_difficulty(exercises)`: drop empty
strings, return `0.0` when nothing remains, otherwise the mean difficulty
of the catalog rows whose name occurs among the remaining entries (`0.0`
again if no row matches). -/
def calculate_mean_difficulty (df : List Record) (exercises : List String) : Rat :=
  if (exercises.filter fun e => e != "").isEmpty then 0
  else if (df.filter fun rec =>
      (exercises.filter fun e => e != "").contains rec.exercise).isEmpty then 0
  else ratMean (df.filter fun rec =>
      (exercises.filter fun e => e != "").contains rec.exercise)

/-- Area label of a selected exercise in `generate_workout_plan`:
`self.df[self.df.exercise == exercise].area.iloc[0]` when a row matches,
else `'Unknown'`. -/
def exerciseArea (df : List Record) (name : String) : String :=
  match df.find? fun rec => rec.exercise == name with
  | some rec => rec.area
  | none => "Unknown"

/-- A cell of the output dataframe: the mean row holds a number, the
exercise rows hold names (pandas object column). -/
inductive Cell where
  | num (q : Rat)
  | str (s : String)
deriving DecidableEq, Repr

/-- The day columns of the `workout_df` under construction, keyed by the
day's difficulty level, in insertion order. -/
abbrev Columns := List (Rat × List Cell)

/-- `workout_df[day] = values`: pandas either creates the first column
(fixing the index length), overwrites an existing column of the same
length, appends a new column of the same length, or raises `ValueError`
when the length differs from the index. -/
def dfAssign (cols : Columns) (key : Rat) (vals : List Cell) : Except String Columns :=
  match cols with
  | [] => .ok [(key, vals)]
  | c0 :: _ =>
    if vals.length = c0.2.length then
      if cols.any fun p => p.1 == key then
        .ok (cols.map fun p => if p.1 == key then (p.1, vals) else p)
      else
        .ok (cols ++ [(key, vals)])
    else
      .error "ValueError: Length of values does not match length of index"

/-- `sum([3 if area == 'Abs' else 2 for area in self.df.area.unique()])`. -/
def areaCoverageTotal (w : WorkoutGenerator) : Nat :=
  ((availableAreas w).map fun a => if a == "Abs" then 3 else 2).sum

/-- The per-area `get_exercises` calls of the quota branch of
`generate_workout_plan`, concatenated in allocation order; any raised
error propagates.  The oracle is indexed by the position of the area in
the allocation.  Python passes each count as-is; `toNat` is faithful
because a negative count makes `get_exercises` return `[]` either way. -/
def quotaDayExercises (w : WorkoutGenerator) (day : Rat) (g : Nat → Oracle) :
    List (Nat × String × Int) → Except String (List String)
  | [] => .ok []
  | (j, area, count) :: rest =>
    match get_exercises w area day count.toNat (1/2) (g j) with
    | .error e => .error e
    | .ok exs =>
      match quotaDayExercises w day g rest with
      | .error e => .error e
      | .ok others => .ok (exs ++ others)

/-- One iteration of the day loop of `generate_workout_plan`: the selected
exercises of the day together with the freshly recomputed
`information_rows` list.  Coverage mode runs when `use_area_coverage` is
set and no (truthy) custom allocation is given; otherwise the quota branch
runs with the custom allocations if nonempty, else computed ones. -/
def planDayResult (w : WorkoutGenerator) (day_difficulty : Rat)
    (custom_allocations : Option (List (String × Int))) (use_area_coverage : Bool)
    (g : Nat → Oracle) : Except String (List String × List String) :=
  let customTruthy : Bool := match custom_allocations with
    | some l => !l.isEmpty
    | none => false
  if use_area_coverage && !customTruthy then
    match get_random_exercises_with_area_coverage w day_difficulty
        (areaCoverageTotal w) (1/2) (g 0) with
    | .error e => .error e
    | .ok exs => .ok (exs, "mean" :: exs.map fun e => exerciseArea w.df e)
  else
    let allocations : List (String × Int) :=
      if customTruthy then custom_allocations.getD []
      else get_area_allocations w (areaCoverageTotal w : Int) true
    match quotaDayExercises w day_difficulty g allocations.enum with
    | .error e => .error e
    | .ok exs =>
      .ok (exs, "mean" :: (allocations.map fun p => List.replicate p.2.toNat p.1).flatten)

/-- The `for day_difficulty in days` loop of `generate_workout_plan`,
threading the columns built so far and the (overwritten each iteration)
`information_rows` list.  Day number `i` uses oracle family `G i`. -/
def buildColumns (w : WorkoutGenerator)
    (custom_allocations : Option (List (String × Int))) (use_area_coverage : Bool)
    (G : Nat → Nat → Oracle) :
    List (Nat × Rat) → Columns → List String → Except String (Columns × List String)
  | [], cols, info => .ok (cols, info)
  | (i, d) :: rest, cols, _info =>
    match planDayResult w d custom_allocations use_area_coverage (G i) with
    | .error e => .error e
    | .ok r =>
      match dfAssign cols d
          (Cell.num (calculate_mean_difficulty w.df r.1) :: r.1.map Cell.str) with
      | .error e => .error e
      | .ok cols2 => buildColumns w custom_allocations use_area_coverage G rest cols2 r.2

/-- The final output table: the `information` label column followed by one
column per requested day, in request order. -/
structure Plan where
  information : List String
  columns : Columns
deriving DecidableEq, Repr

/-- `WorkoutGenerator._save_workout_to_repo`: its whole body is wrapped in
`try/except Exception`, so whatever the outcome of the filesystem writes
(the `diskOutcome` argument), the call returns normally and never
re-raises. -/
def save_workout_to_repo (diskOutcome : Except String Unit) : Except String Unit :=
  match diskOutcome with
  | .ok _ => .ok ()
  | .error _ => .ok ()

/-- Column selection `workout_df[day]` for the final
`workout_df[['information'] + days]`; every requested key was assigned, so
the `[]` default is unreachable. -/
def lookupColumn (cols : Columns) (d : Rat) : List Cell :=
  (((cols.find? fun p => p.1 == d)).map (·.2)).getD []

/-- `WorkoutGenerator.generate_workout_plan(days, custom_allocations,
use_area_coverage, save_to_repo)`.  With `days = []` the loop never runs
and the trailing `workout_df['information'] = information_rows` hits an
unbound name (`NameError`).  Assigning the information column checks the
pandas length rule against the index; then the selected table is
optionally saved (failures swallowed) and returned. -/
def generate_workout_plan (w : WorkoutGenerator) (days : List Rat)
    (custom_allocations : Option (List (String × Int))) (use_area_coverage : Bool)
    (save_to_repo : Bool) (G : Nat → Nat → Oracle) (disk : Except String Unit) :
    Except String Plan :=
  if days.isEmpty then
    .error "NameError: name information_rows is not defined"
  else
    match buildColumns w custom_allocations use_area_coverage G days.enum [] [] with
    | .error e => .error e
    | .ok ci =>
      match ci.1.head? with
      | none => .error "unreachable: days is nonempty"
      | some c0 =>
        if ci.2.length = c0.2.length then
          if save_to_repo then
            match save_workout_to_repo disk with
            | .ok _ => .ok ⟨ci.2, days.map fun d => (d, lookupColumn ci.1 d)⟩
            | .error e => .error e
          else .ok ⟨ci.2, days.map fun d => (d, lookupColumn ci.1 d)⟩
        else
          .error "ValueError: Length of values does not match length of index"

/-! ### Helper lemmas -/

theorem mem_pdUniqueAux {a : String} :
    ∀ (l seen : List String), a ∈ pdUniqueAux seen l ↔ a ∈ l ∧ a ∉ seen := by
  intro l
  induction l with
  | nil => simp [pdUniqueAux]
  | cons b l ih =>
    intro seen
    rw [pdUniqueAux]
    by_cases hb : seen.contains b = true
    · have hbmem : b ∈ seen := List.elem_iff.mp hb
      simp only [hb, if_true, ih, List.mem_cons]
      constructor
      · rintro ⟨h1, h2⟩; exact ⟨Or.inr h1, h2⟩
      · rintro ⟨h1 | h1, h2⟩
        · exact absurd (h1 ▸ hbmem) h2
        · exact ⟨h1, h2⟩
    · have hbmem : b ∉ seen := fun hm => hb (List.elem_eq_true_of_mem hm)
      have hb' : seen.contains b = false := by
        cases h : seen.contains b
        · rfl
        · exact absurd h hb
      rw [hb']
      simp only [Bool.false_eq_true, if_false, List.mem_cons, ih]
      by_cases hab : a = b
      · subst hab; simp [hbmem]
      · simp only [hab, false_or]

theorem mem_pdUnique {a : String} {l : List String} : a ∈ pdUnique l ↔ a ∈ l := by
  rw [pdUnique, mem_pdUniqueAux]; simp

theorem nodup_pdUniqueAux : ∀ (l seen : List String), (pdUniqueAux seen l).Nodup := by
  intro l
  induction l with
  | nil => intro seen; simp [pdUniqueAux]
  | cons b l ih =>
    intro seen
    rw [pdUniqueAux]
    split
    · exact ih seen
    · refine List.nodup_cons.mpr ⟨fun hmem => ?_, ih _⟩
      have := (mem_pdUniqueAux l (b :: seen)).mp hmem
      simp at this

theorem nodup_pdUnique (l : List String) : (pdUnique l).Nodup :=
  nodup_pdUniqueAux l []

theorem nodup_availableAreas (w : WorkoutGenerator) : (availableAreas w).Nodup :=
  nodup_pdUniqueAux _ []

theorem pdUnique_ne_nil {l : List String} (h : l ≠ []) : pdUnique l ≠ [] := by
  cases l with
  | nil => exact absurd rfl h
  | cons a l =>
    rw [pdUnique, pdUniqueAux]
    simp only [List.contains, List.elem]
    exact List.cons_ne_nil _ _

theorem getD_mem {α : Type} {l : List α} {i : Nat} (h : i < l.length) (d : α) :
    l.getD i d ∈ l := by
  rw [List.getD_eq_getElem?_getD, List.getElem?_eq_getElem h]
  exact List.getElem_mem h

theorem availableAreas_sub (w : WorkoutGenerator) {area : String}
    (h : area ∈ availableAreas w) :
    ∃ rec ∈ w.df, rec.area = area := by
  have := mem_pdUnique.mp h
  obtain ⟨rec, hrec, hre⟩ := List.mem_map.mp this
  exact ⟨rec, hrec, hre⟩

theorem areaFilter_ne_nil (w : WorkoutGenerator) {area : String}
    (h : area ∈ availableAreas w) :
    (w.df.filter fun rec => rec.area == area) ≠ [] := by
  obtain ⟨rec, hrec, hre⟩ := availableAreas_sub w h
  intro hnil
  have := List.filter_eq_nil_iff.mp hnil rec hrec
  simp [hre] at this

theorem drawChoices_length (names : List String) (k : Nat) (pick : Nat → Nat) :
    (drawChoices names k pick).length = k := by
  simp [drawChoices]

theorem drawChoices_mem {names : List String} (k : Nat) (pick : Nat → Nat)
    (hne : names ≠ []) : ∀ x ∈ drawChoices names k pick, x ∈ names := by
  intro x hx
  simp only [drawChoices, List.mem_map, List.mem_range] at hx
  obtain ⟨i, -, rfl⟩ := hx
  exact getD_mem (Nat.mod_lt _ (List.length_pos.mpr hne)) _

theorem selectAttempt_eq_some {localRecs : List Record}
    {difficulty tolerance : Rat} {k : Nat} {draw r : List String}
    (h : selectAttempt localRecs difficulty tolerance k draw = some r) :
    r = draw ∧ k ≤ draw.dedup.length ∧
    |ratMean (localRecs.filter fun rec => draw.contains rec.exercise) - difficulty|
      ≤ tolerance := by
  unfold selectAttempt at h
  split at h
  · exact absurd h (by simp)
  · next hk =>
    split at h
    · exact absurd h (by simp)
    · split at h
      · next hmean => exact ⟨(Option.some_inj.mp h).symm, Nat.le_of_not_lt hk, hmean⟩
      · exact absurd h (by simp)

/-- Soundness of every accepted draw of the `get_exercises` sampling loop:
it has the requested length, is duplicate-free, consists of names of the
area subset, and the mean-difficulty test it passed is recorded. -/
theorem selectByAreaLoop_sound {localRecs : List Record}
    {difficulty tolerance : Rat} {k : Nat} {g : Oracle} {r : List String}
    (hne : localRecs ≠ [])
    (hacc : selectByAreaLoop localRecs difficulty tolerance k g = some r) :
    r.length = k ∧ r.Nodup ∧ (∀ x ∈ r, x ∈ localRecs.map (·.exercise)) ∧
    |ratMean (localRecs.filter fun rec => r.contains rec.exercise) - difficulty|
      ≤ tolerance := by
  obtain ⟨t, -, hat⟩ := List.exists_of_findSome?_eq_some hacc
  obtain ⟨rfl, hk, hmean⟩ := selectAttempt_eq_some hat
  set draw := drawChoices (localRecs.map (·.exercise)) k (g t) with hdraw
  have hdlen : draw.length = k := drawChoices_length _ _ _
  have hdedlen : draw.dedup.length = draw.length :=
    Nat.le_antisymm ((List.dedup_sublist draw).length_le) (hdlen ▸ hk)
  have hnodup : draw.Nodup :=
    List.dedup_eq_self.mp ((List.dedup_sublist draw).eq_of_length hdedlen)
  have hnames : (localRecs.map (·.exercise)) ≠ [] := by
    simpa [List.map_eq_nil_iff] using hne
  exact ⟨hdlen, hnodup, drawChoices_mem _ _ hnames, hmean⟩

theorem findSome?_range_head {β : Type} {n : Nat} {f : Nat → Option β} {b : β}
    (hn : 0 < n) (h : f 0 = some b) : (List.range n).findSome? f = some b := by
  cases n with
  | zero => exact absurd hn (by simp)
  | succ m => rw [List.range_succ_eq_map, List.findSome?_cons, h]

/-! ### C5 -/

/-- C5: if the requested area is valid but has strictly fewer records than
the requested count, `get_exercises` returns (without raising) exactly the
area's exercise names padded by empty-string placeholders to the requested
count. -/
theorem get_exercises_pads_when_insufficient (w : WorkoutGenerator) (area : String)
    (difficulty tolerance : Rat) (k : Nat) (g : Oracle)
    (harea : area ∈ availableAreas w)
    (hlt : (w.df.filter fun rec => rec.area == area).length < k) :
    get_exercises w area difficulty k tolerance g =
      .ok ((w.df.filter fun rec => rec.area == area).map (·.exercise) ++
        List.replicate (k - (w.df.filter fun rec => rec.area == area).length) "") ∧
    ((w.df.filter fun rec => rec.area == area).map (·.exercise) ++
      List.replicate (k - (w.df.filter fun rec => rec.area == area).length) "").length
      = k := by
  constructor
  · unfold get_exercises
    have hc : (availableAreas w).contains area = true :=
      List.elem_eq_true_of_mem harea
    simp only [hc, Bool.not_true, Bool.false_eq_true, if_false, hlt, if_true]
  · simp only [List.length_append, List.length_map, List.length_replicate]
    exact Nat.add_sub_cancel' (Nat.le_of_lt hlt)

/-- The all-zeros random source, used by several witnesses. -/
def zeroOracle : Oracle := fun _ _ => 0

/-- A one-record catalog used by witnesses. -/
def W5 : WorkoutGenerator := ⟨[⟨"A", "Legs", 3⟩]⟩

/-- C5 witness: one Legs record, three requested. -/
theorem get_exercises_pads_when_insufficient_witness :
    get_exercises W5 "Legs" 4 3 (1/2) zeroOracle =
      .ok ((W5.df.filter fun rec => rec.area == "Legs").map (·.exercise) ++
        List.replicate (3 - (W5.df.filter fun rec => rec.area == "Legs").length) "") ∧
    ((W5.df.filter fun rec => rec.area == "Legs").map (·.exercise) ++
      List.replicate (3 - (W5.df.filter fun rec => rec.area == "Legs").length) "").length
      = 3 :=
  get_exercises_pads_when_insufficient W5 "Legs" 4 (1/2) 3 zeroOracle
    (by decide) (by decide)

/-! ### C6 -/

/-- C6: with a valid area and enough records, if every one of the 1000
sampling attempts is rejected (duplicate draw or mean out of tolerance),
`get_exercises` returns (without raising) exactly `k` empty-string
placeholders. -/
theorem get_exercises_exhaustion_placeholders (w : WorkoutGenerator) (area : String)
    (difficulty tolerance : Rat) (k : Nat) (g : Oracle)
    (harea : area ∈ availableAreas w)
    (hge : k ≤ (w.df.filter fun rec => rec.area == area).length)
    (hfail : ∀ t < 1000,
      selectAttempt (w.df.filter fun rec => rec.area == area) difficulty tolerance k
        (drawChoices ((w.df.filter fun rec => rec.area == area).map (·.exercise)) k (g t))
        = none) :
    get_exercises w area difficulty k tolerance g = .ok (List.replicate k "") := by
  have hloop : selectByAreaLoop (w.df.filter fun rec => rec.area == area)
      difficulty tolerance k g = none := by
    rw [selectByAreaLoop, List.findSome?_eq_none_iff]
    intro t ht
    exact hfail t (List.mem_range.mp ht)
  have hc : (availableAreas w).contains area = true := List.elem_eq_true_of_mem harea
  simp only [get_exercises, hc, Bool.not_true, Bool.false_eq_true, if_false,
    Nat.not_lt.mpr hge, hloop]

/-- A two-record catalog whose difficulties differ, used by the
exhaustion witness: the all-zeros oracle draws the first record twice on
every attempt, so every attempt is rejected as a duplicate draw. -/
def W6 : WorkoutGenerator := ⟨[⟨"A", "Legs", 1⟩, ⟨"B", "Legs", 2⟩]⟩

/-- C6 witness: the all-zeros oracle rejects all 1000 attempts
(duplicates), and the call returns two placeholders. -/
theorem get_exercises_exhaustion_placeholders_witness :
    get_exercises W6 "Legs" 4 2 (1/2) zeroOracle = .ok (List.replicate 2 "") :=
  get_exercises_exhaustion_placeholders W6 "Legs" 4 (1/2) 2 zeroOracle
    (by decide) (by decide) (fun _ _ => rfl)

/-! ### C7 -/

/-- C7: structurally invalid input raises before any sampling occurs: a
frame missing one of the required columns or carrying no rows fails
construction; `get_exercises` on an unknown area raises the error naming
the valid areas; `get_random_exercises_with_area_coverage` with a count
below the number of distinct areas raises. -/
theorem structural_errors_always_raise :
    (∀ f : RawFrame,
      (("exercise" ∉ f.columns ∨ "area" ∉ f.columns ∨ "diffucility" ∉ f.columns) ∨
        f.records = []) →
      ∃ msg, WorkoutGenerator.make f = .error msg) ∧
    (∀ (w : WorkoutGenerator) (area : String) (difficulty tolerance : Rat)
        (k : Nat) (g : Oracle), area ∉ availableAreas w →
      get_exercises w area difficulty k tolerance g =
        .error (unknownAreaMessage area (availableAreas w))) ∧
    (∀ (w : WorkoutGenerator) (difficulty tolerance : Rat) (k : Nat) (g : Oracle),
      k < (availableAreas w).length →
      get_random_exercises_with_area_coverage w difficulty k tolerance g =
        .error (insufficientCountMessage k (availableAreas w).length)) := by
  refine ⟨?_, ?_, ?_⟩
  · intro f h
    have hval : ∃ msg, validate_dataframe f = .error msg := by
      by_cases hm : (required_columns.filter fun c => !(f.columns.contains c)).isEmpty
      · have hcols : ∀ c ∈ required_columns, c ∈ f.columns := by
          intro c hc
          have := List.filter_eq_nil_iff.mp (List.isEmpty_iff.mp hm) c hc
          simp only [Bool.not_eq_true', Bool.not_eq_false] at this
          exact List.elem_iff.mp this
        have hrec : f.records = [] := by
          rcases h with (h | h | h) | h
          · exact absurd (hcols "exercise" (by simp [required_columns])) h
          · exact absurd (hcols "area" (by simp [required_columns])) h
          · exact absurd (hcols "diffucility" (by simp [required_columns])) h
          · exact h
        refine ⟨"Dataframe cannot be empty", ?_⟩
        unfold validate_dataframe
        rw [if_neg (by rw [hm]; simp), if_pos (by rw [hrec]; rfl)]
      · have hm' : (required_columns.filter fun c => !(f.columns.contains c)).isEmpty
            = false := by
          cases h : (required_columns.filter fun c => !(f.columns.contains c)).isEmpty
          · rfl
          · exact absurd h hm
        refine ⟨"Dataframe missing required columns: " ++
          toString (required_columns.filter fun c => !(f.columns.contains c)), ?_⟩
        unfold validate_dataframe
        rw [if_pos (by rw [hm']; rfl)]
    obtain ⟨msg, hmsg⟩ := hval
    exact ⟨msg, by simp [WorkoutGenerator.make, hmsg]⟩
  · intro w area difficulty tolerance k g harea
    have hc : (availableAreas w).contains area = false := by
      cases h : (availableAreas w).contains area
      · rfl
      · exact absurd (List.elem_iff.mp h) harea
    unfold get_exercises
    rw [if_pos (by rw [hc]; rfl)]
  · intro w difficulty tolerance k g hk
    unfold get_random_exercises_with_area_coverage
    rw [if_pos hk]

/-- C7 witness: a frame missing the `diffucility` column fails
construction, `get_exercises` rejects the unknown area `Arms`, and a
zero-exercise coverage request on a one-area catalog is rejected. -/
theorem structural_errors_always_raise_witness :
    (∃ msg, WorkoutGenerator.make ⟨["exercise", "area"], []⟩ = .error msg) ∧
    get_exercises W5 "Arms" 4 2 (1/2) zeroOracle =
      .error (unknownAreaMessage "Arms" (availableAreas W5)) ∧
    get_random_exercises_with_area_coverage W5 4 0 (1/2) zeroOracle =
      .error (insufficientCountMessage 0 (availableAreas W5).length) :=
  ⟨structural_errors_always_raise.1 ⟨["exercise", "area"], []⟩
      (Or.inl (Or.inr (Or.inr (by decide)))),
   structural_errors_always_raise.2.1 W5 "Arms" 4 (1/2) 2 zeroOracle (by decide),
   structural_errors_always_raise.2.2 W5 4 (1/2) 0 zeroOracle (by decide)⟩

/-! ### C1 -/

/-- C1: a `get_exercises` call on a catalog area with at least `k`
records that returns through the accepting branch of the sampling loop
returns exactly that accepted draw: `k` pairwise-distinct names of records
of that area whose looked-up mean difficulty is within `tolerance` of the
target. -/
theorem get_exercises_accept_sound (w : WorkoutGenerator) (area : String)
    (difficulty tolerance : Rat) (k : Nat) (g : Oracle) (r : List String)
    (harea : area ∈ availableAreas w)
    (hcount : k ≤ (w.df.filter fun rec => rec.area == area).length)
    (haccept : selectByAreaLoop (w.df.filter fun rec => rec.area == area)
      difficulty tolerance k g = some r) :
    get_exercises w area difficulty k tolerance g = .ok r ∧
    r.length = k ∧ r.Nodup ∧
    (∀ x ∈ r, ∃ rec ∈ w.df, rec.area = area ∧ rec.exercise = x) ∧
    |ratMean ((w.df.filter fun rec => rec.area == area).filter
        fun rec => r.contains rec.exercise) - difficulty| ≤ tolerance := by
  have hne := areaFilter_ne_nil w harea
  obtain ⟨hlen, hnodup, hmem, hmean⟩ := selectByAreaLoop_sound hne haccept
  have hc : (availableAreas w).contains area = true := List.elem_eq_true_of_mem harea
  refine ⟨?_, hlen, hnodup, ?_, hmean⟩
  · simp only [get_exercises, hc, Bool.not_true, Bool.false_eq_true, if_false,
      Nat.not_lt.mpr hcount, haccept]
  · intro x hx
    obtain ⟨rec, hrec, hre⟩ := List.mem_map.mp (hmem x hx)
    have hsplit := List.mem_filter.mp hrec
    exact ⟨rec, hsplit.1, by simpa using hsplit.2, hre⟩

/-- A two-record Legs catalog whose pair mean is 4, used by the C1
witness. -/
def W1 : WorkoutGenerator := ⟨[⟨"A", "Legs", 3⟩, ⟨"B", "Legs", 5⟩]⟩

/-- The oracle returning the slot index, so attempt 0 draws each record
once, in order. -/
def slotOracle : Oracle := fun _ i => i

/-- The first attempt of the slot oracle on the catalog `W1` draws A and
B, whose mean 4 is within tolerance, so the loop accepts immediately. -/
theorem W1_loop_accepts :
    selectByAreaLoop (W1.df.filter fun rec => rec.area == "Legs") 4 (1/2) 2 slotOracle
      = some ["A", "B"] := by
  rw [selectByAreaLoop]
  apply findSome?_range_head (by norm_num)
  have hdraw : drawChoices ((W1.df.filter fun rec => rec.area == "Legs").map (·.exercise))
      2 (slotOracle 0) = ["A", "B"] := rfl
  rw [hdraw]
  unfold selectAttempt
  rw [if_neg (by decide), if_neg (by decide), if_pos ?_]
  have hrows : ((W1.df.filter fun rec => rec.area == "Legs").filter
      fun rec => (["A", "B"] : List String).contains rec.exercise) =
      [⟨"A", "Legs", 3⟩, ⟨"B", "Legs", 5⟩] := rfl
  rw [hrows]
  unfold ratMean
  norm_num

/-- C1 witness: on the two-record Legs catalog the slot oracle's first
attempt draws A and B, whose mean 4 is accepted. -/
theorem get_exercises_accept_sound_witness :
    get_exercises W1 "Legs" 4 2 (1/2) slotOracle = .ok ["A", "B"] ∧
    (["A", "B"] : List String).length = 2 ∧ (["A", "B"] : List String).Nodup ∧
    (∀ x ∈ (["A", "B"] : List String),
      ∃ rec ∈ W1.df, rec.area = "Legs" ∧ rec.exercise = x) ∧
    |ratMean ((W1.df.filter fun rec => rec.area == "Legs").filter
        fun rec => (["A", "B"] : List String).contains rec.exercise) - 4| ≤ (1/2 : Rat) :=
  get_exercises_accept_sound W1 "Legs" 4 (1/2) 2 slotOracle ["A", "B"]
    (by decide) (by decide) W1_loop_accepts

/-! ### C8 -/

/-- The concrete four-record catalog of the spec's scenario. -/
def C8cat : WorkoutGenerator :=
  ⟨[⟨"A", "Legs", 3⟩, ⟨"B", "Legs", 5⟩, ⟨"C", "Abs", 2⟩, ⟨"D", "Abs", 4⟩]⟩

set_option maxRecDepth 1000000 in
/-- C8 counterexample: under the all-zeros random source every one of the
1000 attempts draws A twice and is rejected as a duplicate, so this
`selectByArea("Legs", 4.0, 2, 0.5)` call returns two placeholders — not
the set `{A, B}` in any order. -/
theorem selectByArea_scenario_counterexample :
    get_exercises C8cat "Legs" 4 2 (1/2) zeroOracle = .ok ["", ""] ∧
    ¬ ((["", ""] : List String) = ["A", "B"] ∨ (["", ""] : List String) = ["B", "A"]) :=
  ⟨rfl, by decide⟩

/-- C8 (amended): every `selectByArea("Legs", 4.0, 2, 0.5)` call on the
scenario catalog that returns through the accepting branch of the
sampling loop returns `{A, B}` in some order, and every
`selectByArea("Arms", ...)` call on it raises the unknown-area error. -/
theorem selectByArea_scenario_amended (g g2 : Oracle) (r : List String)
    (difficulty2 tolerance2 : Rat) (k2 : Nat)
    (haccept : selectByAreaLoop (C8cat.df.filter fun rec => rec.area == "Legs")
      4 (1/2) 2 g = some r) :
    (get_exercises C8cat "Legs" 4 2 (1/2) g = .ok r ∧
      (r = ["A", "B"] ∨ r = ["B", "A"])) ∧
    get_exercises C8cat "Arms" difficulty2 k2 tolerance2 g2 =
      .error (unknownAreaMessage "Arms" (availableAreas C8cat)) := by
  obtain ⟨hlen, hnodup, hmem, -⟩ := selectByAreaLoop_sound (by decide) haccept
  refine ⟨⟨?_, ?_⟩, ?_⟩
  · simp only [get_exercises, show (availableAreas C8cat).contains "Legs" = true from rfl,
      Bool.not_true, Bool.false_eq_true, if_false,
      Nat.not_lt.mpr (by decide :
        2 ≤ (C8cat.df.filter fun rec => rec.area == "Legs").length), haccept]
  · obtain ⟨x, y, rfl⟩ := List.length_eq_two.mp hlen
    have hnames : ((C8cat.df.filter fun rec => rec.area == "Legs").map (·.exercise))
        = ["A", "B"] := rfl
    have hx : x = "A" ∨ x = "B" := by
      have hx0 := hmem x (by simp)
      rw [hnames] at hx0
      simpa using hx0
    have hy : y = "A" ∨ y = "B" := by
      have hy0 := hmem y (by simp)
      rw [hnames] at hy0
      simpa using hy0
    have hxy : x ≠ y := by
      intro h
      subst h
      simp at hnodup
    rcases hx with rfl | rfl <;> rcases hy with rfl | rfl
    · exact absurd rfl hxy
    · exact Or.inl rfl
    · exact Or.inr rfl
    · exact absurd rfl hxy
  · unfold get_exercises
    rw [if_pos (by decide)]

/-- The first attempt of the slot oracle on the scenario catalog draws A
and B, whose mean 4 is accepted. -/
theorem C8cat_loop_accepts :
    selectByAreaLoop (C8cat.df.filter fun rec => rec.area == "Legs") 4 (1/2) 2 slotOracle
      = some ["A", "B"] := by
  rw [selectByAreaLoop]
  apply findSome?_range_head (by norm_num)
  have hdraw : drawChoices ((C8cat.df.filter fun rec => rec.area == "Legs").map (·.exercise))
      2 (slotOracle 0) = ["A", "B"] := rfl
  rw [hdraw]
  unfold selectAttempt
  rw [if_neg (by decide), if_neg (by decide), if_pos ?_]
  have hrows : ((C8cat.df.filter fun rec => rec.area == "Legs").filter
      fun rec => (["A", "B"] : List String).contains rec.exercise) =
      [⟨"A", "Legs", 3⟩, ⟨"B", "Legs", 5⟩] := rfl
  rw [hrows]
  unfold ratMean
  norm_num

/-- C8 witness for the amended claim: the slot oracle accepts `[A, B]` on
its first attempt, and the Arms call raises. -/
theorem selectByArea_scenario_amended_witness :
    (get_exercises C8cat "Legs" 4 2 (1/2) slotOracle = .ok ["A", "B"] ∧
      ((["A", "B"] : List String) = ["A", "B"] ∨ (["A", "B"] : List String) = ["B", "A"])) ∧
    get_exercises C8cat "Arms" 4 2 (1/2) zeroOracle =
      .error (unknownAreaMessage "Arms" (availableAreas C8cat)) := by
  have h := selectByArea_scenario_amended slotOracle zeroOracle ["A", "B"] 4 (1/2) 2
    C8cat_loop_accepts
  exact h

/-! ### C9 -/

/-- C9: the disk-persistence step of `generate_workout_plan` never
propagates a failure — `_save_workout_to_repo` returns normally whatever
the filesystem outcome — and the plan returned with `save_to_repo` set is
exactly the plan returned had the persistence succeeded. -/
theorem save_failure_never_propagates (w : WorkoutGenerator) (days : List Rat)
    (custom_allocations : Option (List (String × Int))) (use_area_coverage : Bool)
    (G : Nat → Nat → Oracle) (disk : Except String Unit) :
    save_workout_to_repo disk = .ok () ∧
    generate_workout_plan w days custom_allocations use_area_coverage true G disk =
      generate_workout_plan w days custom_allocations use_area_coverage true G (.ok ()) := by
  have hs : save_workout_to_repo disk = .ok () := by cases disk <;> rfl
  refine ⟨hs, ?_⟩
  unfold generate_workout_plan
  rw [hs, show save_workout_to_repo (Except.ok ()) = Except.ok () from rfl]

/-! ### C2 -/

theorem sumMapAdd {α : Type} (l : List α) (f h : α → Int) :
    (l.map fun x => f x + h x).sum = (l.map f).sum + (l.map h).sum := by
  induction l with
  | nil => simp
  | cons a l ih => simp only [List.map_cons, List.sum_cons, ih]; ring

theorem sumMapConst {α : Type} (l : List α) (c : Int) :
    (l.map fun _ => c).sum = l.length * c := by
  induction l with
  | nil => simp
  | cons a l ih =>
    simp only [List.map_cons, List.sum_cons, ih, List.length_cons]
    push_cast
    ring

theorem sumIndicatorLT (rem : Int) (hrem : 0 ≤ rem) (n : Nat) :
    ((List.range n).map fun (i : Nat) => if (i : Int) < rem then (1 : Int) else 0).sum
      = min rem n := by
  induction n with
  | zero => simpa using (min_eq_right hrem).symm
  | succ m ih =>
    rw [List.range_succ, List.map_append, List.sum_append, ih]
    simp only [List.map_cons, List.map_nil, List.sum_cons, List.sum_nil, add_zero]
    by_cases h : (m : Int) < rem
    · rw [if_pos h]
      push_cast
      omega
    · rw [if_neg h]
      push_cast
      omega

theorem sumIndicatorBeq (l : List String) (x : String) :
    (l.map fun a => if a == x then (1 : Int) else 0).sum = (l.count x : Int) := by
  induction l with
  | nil => simp
  | cons a l ih =>
    rw [List.map_cons, List.sum_cons, ih, List.count_cons]
    by_cases h : a == x
    · rw [if_pos h, if_pos h]
      push_cast
      ring
    · rw [if_neg h, if_neg h]
      push_cast
      ring

/-- C2: for every catalog with at least one area and every requested
total at least the number of distinct areas, the per-area quotas of
`get_area_allocations` sum exactly to the requested total, for both
values of the privileged-area flag and whether or not `Abs` is present. -/
theorem get_area_allocations_sum (w : WorkoutGenerator) (n : Int) (more_abs : Bool)
    (hne : w.df ≠ [])
    (_hn : ((availableAreas w).length : Int) ≤ n) :
    ((get_area_allocations w n more_abs).map Prod.snd).sum = n := by
  have hanil : availableAreas w ≠ [] := by
    apply pdUnique_ne_nil
    simpa [List.map_eq_nil_iff] using hne
  have hlen : 0 < (availableAreas w).length := List.length_pos.mpr hanil
  have hL0 : (0 : Int) < ((availableAreas w).length : Int) := by exact_mod_cast hlen
  simp only [get_area_allocations]
  split
  · next habs =>
    have habsmem : "Abs" ∈ availableAreas w :=
      List.elem_iff.mp ((Bool.and_eq_true _ _).mp habs).2
    set L := (availableAreas w).length with hLdef
    set base := (n - 1) / (L : Int) with hbase
    set rem := (n - 1) % (L : Int) with hrem
    have hrem0 : 0 ≤ rem := Int.emod_nonneg _ (ne_of_gt hL0)
    have hremlt : rem < (L : Int) := Int.emod_lt_of_pos _ hL0
    rw [List.map_map]
    have hfun : (Prod.snd ∘ fun p : Nat × String =>
        (p.2, if p.2 == "Abs" then base + 1 + (if (p.1 : Int) < rem then 1 else 0)
              else base + (if (p.1 : Int) < rem then 1 else 0)))
        = fun p : Nat × String =>
          (base + (if (p.1 : Int) < rem then 1 else 0)) +
            (if p.2 == "Abs" then (1 : Int) else 0) := by
      funext p
      by_cases h : p.2 == "Abs"
      · rw [Function.comp_apply]
        simp only [h, if_pos]
        ring
      · rw [Function.comp_apply]
        simp only [h, if_neg, Bool.false_eq_true, if_false]
        ring
    rw [hfun, sumMapAdd ((availableAreas w).enum)
      (fun p => base + (if (p.1 : Int) < rem then 1 else 0))
      (fun p => if p.2 == "Abs" then (1 : Int) else 0)]
    have h1 : ((availableAreas w).enum.map
        fun p => base + (if (p.1 : Int) < rem then 1 else 0))
        = ((availableAreas w).enum.map Prod.fst).map
            fun (i : Nat) => base + (if (i : Int) < rem then 1 else 0) := by
      rw [List.map_map]
      rfl
    have h2 : ((availableAreas w).enum.map fun p => if p.2 == "Abs" then (1 : Int) else 0)
        = ((availableAreas w).enum.map Prod.snd).map
            fun a => if a == "Abs" then (1 : Int) else 0 := by
      rw [List.map_map]
      rfl
    rw [h1, h2, List.enum_map_fst, List.enum_map_snd,
      sumMapAdd (List.range L) (fun _ => base) (fun (i : Nat) => if (i : Int) < rem then 1 else 0),
      sumMapConst, sumIndicatorLT rem hrem0, sumIndicatorBeq,
      List.count_eq_one_of_mem (nodup_availableAreas w) habsmem]
    have hdiv : (L : Int) * base + rem = n - 1 := by
      rw [hbase, hrem]
      exact Int.ediv_add_emod (n - 1) (L : Int)
    rw [List.length_range, min_eq_left (le_of_lt hremlt)]
    omega
  · set L := (availableAreas w).length with hLdef
    set base := n / (L : Int) with hbase
    set rem := n % (L : Int) with hrem
    have hrem0 : 0 ≤ rem := Int.emod_nonneg _ (ne_of_gt hL0)
    have hremlt : rem < (L : Int) := Int.emod_lt_of_pos _ hL0
    rw [List.map_map]
    have h1 : ((availableAreas w).enum.map
        (Prod.snd ∘ fun p : Nat × String =>
          (p.2, base + (if (p.1 : Int) < rem then 1 else 0))))
        = ((availableAreas w).enum.map Prod.fst).map
            fun (i : Nat) => base + (if (i : Int) < rem then 1 else 0) := by
      rw [List.map_map]
      rfl
    rw [h1, List.enum_map_fst,
      sumMapAdd (List.range L) (fun _ => base) (fun (i : Nat) => if (i : Int) < rem then 1 else 0),
      sumMapConst, sumIndicatorLT rem hrem0]
    have hdiv : (L : Int) * base + rem = n := by
      rw [hbase, hrem]
      exact Int.ediv_add_emod n (L : Int)
    rw [List.length_range, min_eq_left (le_of_lt hremlt)]
    omega

/-- A catalog with an Abs area and a Legs area, used by the C2 and C4
witnesses. -/
def W4 : WorkoutGenerator := ⟨[⟨"A", "Legs", 3⟩, ⟨"B", "Abs", 5⟩]⟩

/-- C2 witness: seven exercises over the two areas of `W4`, with the
privileged-area flag set. -/
theorem get_area_allocations_sum_witness :
    ((get_area_allocations W4 7 true).map Prod.snd).sum = 7 :=
  get_area_allocations_sum W4 7 true (by decide) (by decide)

/-! ### C4 -/

theorem length_filterMap_of_all_some {α β : Type} (f : α → Option β) :
    ∀ l : List α, (∀ x ∈ l, (f x).isSome) → (l.filterMap f).length = l.length := by
  intro l
  induction l with
  | nil => simp
  | cons a l ih =>
    intro h
    rw [List.filterMap_cons]
    cases hfa : f a with
    | none =>
      have := h a (by simp)
      rw [hfa] at this
      exact absurd this (by simp)
    | some b => simp [ih fun x hx => h x (by simp [hx])]

theorem mem_enumFrom_of_mem {α : Type} {a : α} :
    ∀ {l : List α} (n : Nat), a ∈ l → ∃ j, (j, a) ∈ l.enumFrom n := by
  intro l
  induction l with
  | nil => simp
  | cons b l ih =>
    intro n h
    rcases List.mem_cons.mp h with rfl | h
    · exact ⟨n, by simp [List.enumFrom]⟩
    · obtain ⟨j, hj⟩ := ih (n + 1) h
      exact ⟨j, by simp [List.enumFrom, hj]⟩

theorem mem_enum_of_mem {α : Type} {a : α} {l : List α} (h : a ∈ l) :
    ∃ j, (j, a) ∈ l.enum := mem_enumFrom_of_mem 0 h

theorem areaFilter_ne_nil' {df : List Record} {area : String}
    (h : area ∈ pdUnique (df.map (·.area))) :
    (df.filter fun rec => rec.area == area) ≠ [] := by
  obtain ⟨rec, hrec, hre⟩ := List.mem_map.mp (mem_pdUnique.mp h)
  intro hnil
  have := List.filter_eq_nil_iff.mp hnil rec hrec
  simp [hre] at this

theorem coveragePerArea_length (df : List Record) (pick : Nat → Nat) :
    (coveragePerArea df pick).length = (pdUnique (df.map (·.area))).length := by
  rw [coveragePerArea, length_filterMap_of_all_some]
  · exact List.enum_length
  · intro p hp
    have hmem : p.2 ∈ pdUnique (df.map (·.area)) := by
      obtain ⟨hi, hx⟩ := List.mem_enum hp
      rw [hx]
      exact List.getElem_mem hi
    have hne : ((df.filter fun rec => rec.area == p.2).map (·.exercise)) ≠ [] := by
      simpa [List.map_eq_nil_iff] using areaFilter_ne_nil' hmem
    have hempty : ((df.filter fun rec => rec.area == p.2).map (·.exercise)).isEmpty
        = false := by
      simpa [List.isEmpty_iff] using hne
    rw [hempty]
    simp

theorem coverageDraw_length (df : List Record) (k : Nat) (pick : Nat → Nat)
    (hk : (pdUnique (df.map (·.area))).length ≤ k) :
    (coverageDraw df k pick).length = k := by
  rw [coverageDraw, List.length_append, List.length_map, List.length_range,
    coveragePerArea_length]
  omega

theorem coveragePerArea_covers (df : List Record) (pick : Nat → Nat) :
    ∀ a ∈ pdUnique (df.map (·.area)), ∃ x ∈ coveragePerArea df pick,
      ∃ rec ∈ df, rec.exercise = x ∧ rec.area = a := by
  intro a ha
  obtain ⟨j, hj⟩ := mem_enum_of_mem ha
  have hne : ((df.filter fun rec => rec.area == a).map (·.exercise)) ≠ [] := by
    simpa [List.map_eq_nil_iff] using areaFilter_ne_nil' ha
  have hempty : ((df.filter fun rec => rec.area == a).map (·.exercise)).isEmpty
      = false := by
    simpa [List.isEmpty_iff] using hne
  have hx : ((df.filter fun rec => rec.area == a).map (·.exercise)).getD
      (pick j % ((df.filter fun rec => rec.area == a).map (·.exercise)).length) ""
      ∈ ((df.filter fun rec => rec.area == a).map (·.exercise)) :=
    getD_mem (Nat.mod_lt _ (List.length_pos.mpr hne)) _
  refine ⟨((df.filter fun rec => rec.area == a).map (·.exercise)).getD
      (pick j % ((df.filter fun rec => rec.area == a).map (·.exercise)).length) "",
    ?_, ?_⟩
  · rw [coveragePerArea]
    apply List.mem_filterMap.mpr
    refine ⟨(j, a), hj, ?_⟩
    rw [hempty]
    simp
  · obtain ⟨rec, hrec, hre⟩ := List.mem_map.mp hx
    have hsplit := List.mem_filter.mp hrec
    exact ⟨rec, hsplit.1, hre, by simpa using hsplit.2⟩

theorem coverageAttempt_eq_some {df : List Record} {difficulty tolerance : Rat}
    {k : Nat} {draw r : List String}
    (h : coverageAttempt df difficulty tolerance k draw = some r) :
    r = draw.dedup.take k ∧ k ≤ draw.dedup.length := by
  unfold coverageAttempt at h
  split at h
  · exact absurd h (by simp)
  · next hk =>
    split at h
    · exact absurd h (by simp)
    · split at h
      · exact ⟨(Option.some_inj.mp h).symm, Nat.le_of_not_lt hk⟩
      · exact absurd h (by simp)

/-- C4: every result that `get_random_exercises_with_area_coverage`
returns through the accepting branch of its sampling loop (not the
exhaustion fallback) consists of exactly `k` pairwise-distinct exercise
names and contains, for every distinct area of the catalog, at least one
name belonging to a record of that area. -/
theorem coverage_accept_sound (w : WorkoutGenerator) (difficulty tolerance : Rat)
    (k : Nat) (g : Oracle) (r : List String)
    (hk : (availableAreas w).length ≤ k)
    (hne : w.df ≠ [])
    (haccept : coverageLoop w.df difficulty tolerance k g = some r) :
    get_random_exercises_with_area_coverage w difficulty k tolerance g = .ok r ∧
    r.length = k ∧ r.Nodup ∧
    (∀ a ∈ availableAreas w, ∃ x ∈ r, ∃ rec ∈ w.df, rec.exercise = x ∧ rec.area = a) := by
  obtain ⟨t, -, hat⟩ := List.exists_of_findSome?_eq_some haccept
  obtain ⟨rfl, hkd⟩ := coverageAttempt_eq_some hat
  have hdlen : (coverageDraw w.df k (g t)).length = k := coverageDraw_length _ _ _ hk
  have hsub : (coverageDraw w.df k (g t)).dedup.length
      ≤ (coverageDraw w.df k (g t)).length :=
    (List.dedup_sublist _).length_le
  have hdedlen : (coverageDraw w.df k (g t)).dedup.length
      = (coverageDraw w.df k (g t)).length := by omega
  have heq : (coverageDraw w.df k (g t)).dedup = coverageDraw w.df k (g t) :=
    (List.dedup_sublist _).eq_of_length hdedlen
  have hnodup : (coverageDraw w.df k (g t)).Nodup := List.dedup_eq_self.mp heq
  have hr : (coverageDraw w.df k (g t)).dedup.take k = coverageDraw w.df k (g t) := by
    rw [heq]
    exact List.take_of_length_le (by omega)
  refine ⟨?_, ?_, ?_, ?_⟩
  · unfold get_random_exercises_with_area_coverage
    rw [if_neg (Nat.not_lt.mpr hk),
      if_neg (by simp [List.isEmpty_iff, hne]), haccept]
  · rw [hr, hdlen]
  · rw [hr]; exact hnodup
  · intro a ha
    obtain ⟨x, hxmem, rec, hrec, hre, hra⟩ := coveragePerArea_covers w.df (g t) a ha
    refine ⟨x, ?_, rec, hrec, hre, hra⟩
    rw [hr, coverageDraw]
    exact List.mem_append_left _ hxmem

/-- The first attempt of the all-zeros oracle on `W4` picks A for Legs
and B for Abs; the pair mean 4 is within tolerance 1, so the coverage
loop accepts immediately. -/
theorem W4_coverage_accepts :
    coverageLoop W4.df 4 1 2 zeroOracle = some ["A", "B"] := by
  rw [coverageLoop]
  apply findSome?_range_head (by norm_num)
  have hdraw : coverageDraw W4.df 2 (zeroOracle 0) = ["A", "B"] := rfl
  rw [hdraw]
  unfold coverageAttempt
  rw [if_neg (by decide), if_neg (by decide), if_pos ?_]
  · rfl
  have hrows : (W4.df.filter fun rec =>
      (["A", "B"] : List String).dedup.contains rec.exercise) =
      [⟨"A", "Legs", 3⟩, ⟨"B", "Abs", 5⟩] := rfl
  rw [hrows]
  unfold ratMean
  norm_num

/-- C4 witness: the accepted first draw on `W4` has both names, distinct,
covering both areas. -/
theorem coverage_accept_sound_witness :
    get_random_exercises_with_area_coverage W4 4 2 1 zeroOracle = .ok ["A", "B"] ∧
    (["A", "B"] : List String).length = 2 ∧ (["A", "B"] : List String).Nodup ∧
    (∀ a ∈ availableAreas W4, ∃ x ∈ (["A", "B"] : List String),
      ∃ rec ∈ W4.df, rec.exercise = x ∧ rec.area = a) :=
  coverage_accept_sound W4 4 1 2 zeroOracle ["A", "B"]
    (by decide) (by decide) W4_coverage_accepts

/-! ### C3 -/

/-- The string entries of a column segment (exercise cells). -/
def colStrings (cells : List Cell) : List String :=
  cells.filterMap fun c => match c with
    | .str s => some s
    | .num _ => none

theorem colStrings_map_str (exs : List String) : colStrings (exs.map Cell.str) = exs := by
  unfold colStrings
  induction exs with
  | nil => rfl
  | cons a l ih =>
    rw [List.map_cons, List.filterMap_cons]
    simpa using ih

/-- The shape every day column assigned by `buildColumns` has: a mean
cell computed by `_calculate_mean_difficulty` from that day's selections,
followed by those selections as string cells. -/
def ColStruct (df : List Record) (c : List Cell) : Prop :=
  ∃ exs : List String,
    c = Cell.num (calculate_mean_difficulty df exs) :: exs.map Cell.str

theorem calculate_mean_difficulty_of_no_valid {df : List Record} {exs : List String}
    (h : (exs.filter fun e => e != "") = []) :
    calculate_mean_difficulty df exs = 0 := by
  unfold calculate_mean_difficulty
  rw [if_pos (by rw [h]; rfl)]

theorem dfAssign_ok_facts {cols : Columns} {key : Rat} {vals : List Cell}
    {cols2 : Columns} (h : dfAssign cols key vals = .ok cols2) :
    (∀ p ∈ cols2, p.2 = vals ∨ ∃ q ∈ cols, p.2 = q.2) ∧
    (∀ k0 : Rat, ((cols.any fun p => p.1 == k0) = true ∨ k0 = key) →
      (cols2.any fun p => p.1 == k0) = true) ∧
    (∀ c0 ∈ cols.head?, vals.length = c0.2.length) := by
  cases cols with
  | nil =>
    simp only [dfAssign] at h
    injection h with h
    subst h
    refine ⟨?_, ?_, ?_⟩
    · intro p hp
      simp only [List.mem_singleton] at hp
      exact Or.inl (by rw [hp])
    · intro k0 hk0
      rcases hk0 with hk0 | rfl
      · simp at hk0
      · simp
    · intro c0 hc0
      simp at hc0
  | cons c0 cs =>
    simp only [dfAssign] at h
    split at h
    · next hlen =>
      split at h
      · next hany =>
        injection h with h
        subst h
        refine ⟨?_, ?_, ?_⟩
        · intro p hp
          obtain ⟨q, hq, hpq⟩ := List.mem_map.mp hp
          by_cases hqk : (q.1 == key) = true
          · rw [if_pos hqk] at hpq
            exact Or.inl (by rw [← hpq])
          · rw [if_neg hqk] at hpq
            exact Or.inr ⟨q, hq, by rw [← hpq]⟩
        · intro k0 hk0
          apply List.any_eq_true.mpr
          rcases hk0 with hk0 | rfl
          · obtain ⟨q, hq, hqk⟩ := List.any_eq_true.mp hk0
            refine ⟨if (q.1 == key) = true then (q.1, vals) else q,
              List.mem_map_of_mem _ hq, ?_⟩
            by_cases hcase : (q.1 == key) = true
            · rw [if_pos hcase]
              exact hqk
            · rw [if_neg hcase]
              exact hqk
          · obtain ⟨q, hq, hqk⟩ := List.any_eq_true.mp hany
            refine ⟨if (q.1 == k0) = true then (q.1, vals) else q,
              List.mem_map_of_mem _ hq, ?_⟩
            rw [if_pos hqk]
            exact hqk
        · intro d0 hd0
          simp only [List.head?_cons, Option.mem_def, Option.some_inj] at hd0
          rw [← hd0]
          exact hlen
      · next hany =>
        injection h with h
        subst h
        refine ⟨?_, ?_, ?_⟩
        · intro p hp
          rcases List.mem_append.mp hp with hp | hp
          · exact Or.inr ⟨p, hp, rfl⟩
          · simp only [List.mem_singleton] at hp
            exact Or.inl (by rw [hp])
        · intro k0 hk0
          rcases hk0 with hk0 | rfl
          · rw [List.any_append, hk0]
            rfl
          · rw [List.any_append]
            simp
        · intro d0 hd0
          simp only [List.head?_cons, Option.mem_def, Option.some_inj] at hd0
          rw [← hd0]
          exact hlen
    · exact absurd h (by simp)

theorem buildColumns_facts (w : WorkoutGenerator)
    (custom : Option (List (String × Int))) (useCov : Bool) (G : Nat → Nat → Oracle) :
    ∀ (rest : List (Nat × Rat)) (cols : Columns) (info : List String)
      (out : Columns × List String),
    buildColumns w custom useCov G rest cols info = .ok out →
    (∀ p ∈ cols, ColStruct w.df p.2) →
    (∀ p ∈ cols, ∀ q ∈ cols, p.2.length = q.2.length) →
    ((∀ p ∈ out.1, ColStruct w.df p.2) ∧
     (∀ p ∈ out.1, ∀ q ∈ out.1, p.2.length = q.2.length) ∧
     (∀ k0 : Rat, ((cols.any fun p => p.1 == k0) = true ∨ ∃ i, (i, k0) ∈ rest) →
        (out.1.any fun p => p.1 == k0) = true)) := by
  intro rest
  induction rest with
  | nil =>
    intro cols info out h hstruct hlen
    simp only [buildColumns] at h
    injection h with h
    subst h
    refine ⟨hstruct, hlen, ?_⟩
    intro k0 hk0
    rcases hk0 with hk0 | ⟨i, hi⟩
    · exact hk0
    · simp at hi
  | cons hd rest ih =>
    obtain ⟨i, d⟩ := hd
    intro cols info out h hstruct hlen
    simp only [buildColumns] at h
    cases hpd : planDayResult w d custom useCov (G i) with
    | error e =>
      simp only [hpd] at h
      exact absurd h (by simp)
    | ok r =>
      simp only [hpd] at h
      cases hda : dfAssign cols d
          (Cell.num (calculate_mean_difficulty w.df r.1) :: r.1.map Cell.str) with
      | error e =>
        simp only [hda] at h
        exact absurd h (by simp)
      | ok cols2 =>
        simp only [hda] at h
        obtain ⟨hmem2, hkey2, hhead2⟩ := dfAssign_ok_facts hda
        have hstruct2 : ∀ p ∈ cols2, ColStruct w.df p.2 := by
          intro p hp
          rcases hmem2 p hp with hv | ⟨q, hq, hq2⟩
          · exact ⟨r.1, hv⟩
          · rw [hq2]
            exact hstruct q hq
        have hlen2 : ∀ p ∈ cols2, ∀ q ∈ cols2, p.2.length = q.2.length := by
          intro p hp q hq
          cases cols with
          | nil =>
            rcases hmem2 p hp with hv | ⟨q', hq', -⟩
            · rcases hmem2 q hq with hv' | ⟨q', hq', -⟩
              · rw [hv, hv']
              · simp at hq'
            · simp at hq'
          | cons c0 cs =>
            have hvl : (Cell.num (calculate_mean_difficulty w.df r.1)
                :: r.1.map Cell.str).length = c0.2.length := hhead2 c0 (by simp)
            have hall : ∀ x ∈ c0 :: cs, x.2.length = c0.2.length :=
              fun x hx => hlen x hx c0 (by simp)
            rcases hmem2 p hp with hv | ⟨q', hq', hq2⟩
            · rcases hmem2 q hq with hv' | ⟨q'', hq'', hq2'⟩
              · rw [hv, hv']
              · rw [hv, hq2', hvl, hall q'' hq'']
            · rcases hmem2 q hq with hv' | ⟨q'', hq'', hq2'⟩
              · rw [hq2, hv', hall q' hq', hvl]
              · rw [hq2, hq2', hall q' hq', hall q'' hq'']
        obtain ⟨ho1, ho2, ho3⟩ := ih cols2 r.2 out h hstruct2 hlen2
        refine ⟨ho1, ho2, ?_⟩
        intro k0 hk0
        apply ho3
        rcases hk0 with hk0 | ⟨i', hi'⟩
        · exact Or.inl (hkey2 k0 (Or.inl hk0))
        · rcases List.mem_cons.mp hi' with heq | hi'
          · exact Or.inl (hkey2 k0 (Or.inr (congrArg Prod.snd heq)))
          · exact Or.inr ⟨i', hi'⟩

theorem generate_ok_elim {w : WorkoutGenerator} {days : List Rat}
    {custom : Option (List (String × Int))} {useCov save : Bool}
    {G : Nat → Nat → Oracle} {disk : Except String Unit} {plan : Plan}
    (h : generate_workout_plan w days custom useCov save G disk = .ok plan) :
    ∃ cols info, buildColumns w custom useCov G days.enum [] [] = .ok (cols, info) ∧
      plan.information = info ∧
      plan.columns = days.map fun d => (d, lookupColumn cols d) := by
  unfold generate_workout_plan at h
  split at h
  · exact absurd h (by simp)
  · cases hbc : buildColumns w custom useCov G days.enum [] [] with
    | error e =>
      simp only [hbc] at h
      exact absurd h (by simp)
    | ok ci =>
      simp only [hbc] at h
      refine ⟨ci.1, ci.2, congrArg Except.ok Prod.mk.eta.symm, ?_⟩
      cases hh : ci.1.head? with
      | none =>
        simp only [hh] at h
        exact absurd h (by simp)
      | some c0 =>
        simp only [hh] at h
        split at h
        · split at h
          · rw [show save_workout_to_repo disk = .ok () from by cases disk <;> rfl] at h
            injection h with h
            rw [← h]
            exact ⟨rfl, rfl⟩
          · injection h with h
            rw [← h]
            exact ⟨rfl, rfl⟩
        · exact absurd h (by simp)

/-- C3: every two-day table `generate_workout_plan` returns has columns
keyed `d1` then `d2` with identical row counts, and in each column the
first row is the `_calculate_mean_difficulty` mean of that column's
non-placeholder (non-empty-string) entries — in particular `0` when there
are none. -/
theorem generate_workout_plan_two_day_table (w : WorkoutGenerator) (d1 d2 : Rat)
    (custom : Option (List (String × Int))) (useCov save : Bool)
    (G : Nat → Nat → Oracle) (disk : Except String Unit) (plan : Plan)
    (h : generate_workout_plan w [d1, d2] custom useCov save G disk = .ok plan) :
    plan.columns.map Prod.fst = [d1, d2] ∧
    (∀ p ∈ plan.columns, ∀ q ∈ plan.columns, p.2.length = q.2.length) ∧
    (∀ p ∈ plan.columns,
      p.2.head? = some (Cell.num (calculate_mean_difficulty w.df (colStrings p.2.tail))) ∧
      (((colStrings p.2.tail).filter fun e => e != "") = [] →
        p.2.head? = some (Cell.num 0))) := by
  obtain ⟨cols, info, hbc, hinfo, hcolsdef⟩ := generate_ok_elim h
  rw [show ([d1, d2] : List Rat).enum = [(0, d1), (1, d2)] from rfl] at hbc
  obtain ⟨hstruct, hlen, hkeys⟩ := buildColumns_facts w custom useCov G _ [] [] _ hbc
    (by simp) (by simp)
  have hlook : ∀ dk : Rat, (cols.any fun p => p.1 == dk) = true →
      ∃ q ∈ cols, lookupColumn cols dk = q.2 := by
    intro dk hany
    obtain ⟨x, hx, hpx⟩ := List.any_eq_true.mp hany
    have hsome : (cols.find? fun p => p.1 == dk).isSome :=
      List.find?_isSome.mpr ⟨x, hx, hpx⟩
    obtain ⟨q, hq⟩ := Option.isSome_iff_exists.mp hsome
    refine ⟨q, List.mem_of_find?_eq_some hq, ?_⟩
    rw [lookupColumn, hq]
    rfl
  obtain ⟨q1, hq1mem, hl1⟩ := hlook d1 (hkeys d1 (Or.inr ⟨0, by simp⟩))
  obtain ⟨q2, hq2mem, hl2⟩ := hlook d2 (hkeys d2 (Or.inr ⟨1, by simp⟩))
  have hcolsval : plan.columns = [(d1, lookupColumn cols d1), (d2, lookupColumn cols d2)] := by
    rw [hcolsdef]
    rfl
  have hmemval : ∀ p ∈ plan.columns, ∃ q ∈ cols, p.2 = q.2 := by
    intro p hp
    rw [hcolsval] at hp
    rcases List.mem_cons.mp hp with rfl | hp
    · exact ⟨q1, hq1mem, hl1⟩
    · rcases List.mem_cons.mp hp with rfl | hp
      · exact ⟨q2, hq2mem, hl2⟩
      · simp at hp
  refine ⟨by rw [hcolsval]; simp, ?_, ?_⟩
  · intro p hp q hq
    obtain ⟨qp, hqp, hep⟩ := hmemval p hp
    obtain ⟨qq, hqq, heq⟩ := hmemval q hq
    rw [hep, heq]
    exact hlen qp hqp qq hqq
  · intro p hp
    obtain ⟨qp, hqp, hep⟩ := hmemval p hp
    obtain ⟨exs, hexs⟩ := hstruct qp hqp
    have hhead : p.2.head? = some (Cell.num (calculate_mean_difficulty w.df exs)) := by
      rw [hep, hexs]
      rfl
    have htail : colStrings p.2.tail = exs := by
      rw [hep, hexs]
      exact colStrings_map_str exs
    constructor
    · rw [htail]
      exact hhead
    · intro hnone
      rw [htail] at hnone
      rw [hhead, calculate_mean_difficulty_of_no_valid hnone]

/-- The one-record catalog of the C3 and C10 witnesses. -/
def W3 : WorkoutGenerator := ⟨[⟨"A", "Legs", 3⟩]⟩

/-- The all-zeros oracle family for `generate_workout_plan` witnesses. -/
def G0 : Nat → Nat → Oracle := fun _ _ _ _ => 0

/-- The concrete plan produced by the witness run: one exercise per day,
mean 3 in both columns. -/
def P3 : Plan :=
  ⟨["mean", "Legs"],
   [(3, [Cell.num 3, Cell.str "A"]), (4, [Cell.num 3, Cell.str "A"])]⟩

theorem W3_mean : calculate_mean_difficulty W3.df ["A"] = 3 := by
  unfold calculate_mean_difficulty
  rw [if_neg (by decide), if_neg (by decide)]
  rw [show (W3.df.filter fun rec =>
      ((["A"] : List String).filter fun e => e != "").contains rec.exercise)
      = [⟨"A", "Legs", 3⟩] from rfl]
  unfold ratMean
  norm_num

set_option maxRecDepth 4000000 in
/-- On `W3` both days' coverage loops exhaust (every draw repeats A), the
fallback returns `[A]`, and the built table is `P3`. -/
theorem W3_plan_eval :
    generate_workout_plan W3 [3, 4] none true false G0 (.ok ()) = .ok P3 := by
  have hsymb : generate_workout_plan W3 [3, 4] none true false G0 (.ok ()) =
      .ok ⟨["mean", "Legs"],
        [(3, [Cell.num (calculate_mean_difficulty W3.df ["A"]), Cell.str "A"]),
         (4, [Cell.num (calculate_mean_difficulty W3.df ["A"]), Cell.str "A"])]⟩ := rfl
  rw [hsymb, W3_mean]
  rfl

/-- C3 witness: the concrete two-day plan `P3` built on `W3`. -/
theorem generate_workout_plan_two_day_table_witness :
    P3.columns.map Prod.fst = [(3 : Rat), 4] ∧
    (∀ p ∈ P3.columns, ∀ q ∈ P3.columns, p.2.length = q.2.length) ∧
    (∀ p ∈ P3.columns,
      p.2.head? = some (Cell.num (calculate_mean_difficulty W3.df (colStrings p.2.tail))) ∧
      (((colStrings p.2.tail).filter fun e => e != "") = [] →
        p.2.head? = some (Cell.num 0))) :=
  generate_workout_plan_two_day_table W3 3 4 none true false G0 (.ok ()) P3 W3_plan_eval

/-! ### C10 -/

theorem buildColumns_last_info (w : WorkoutGenerator)
    (custom : Option (List (String × Int))) (useCov : Bool) (G : Nat → Nat → Oracle) :
    ∀ (front : List (Nat × Rat)) (p : Nat × Rat) (cols : Columns) (info : List String)
      (out : Columns × List String) (r : List String × List String),
    buildColumns w custom useCov G (front ++ [p]) cols info = .ok out →
    planDayResult w p.2 custom useCov (G p.1) = .ok r →
    out.2 = r.2 := by
  intro front
  induction front with
  | nil =>
    intro p cols info out r h hp
    obtain ⟨i, d⟩ := p
    have hp' : planDayResult w d custom useCov (G i) = .ok r := hp
    simp only [List.nil_append, buildColumns] at h
    simp only [hp'] at h
    cases hda : dfAssign cols d
        (Cell.num (calculate_mean_difficulty w.df r.1) :: r.1.map Cell.str) with
    | error e =>
      simp only [hda] at h
      exact absurd h (by simp)
    | ok cols2 =>
      simp only [hda] at h
      injection h with h
      rw [← h]
  | cons hd front ih =>
    intro p cols info out r h hp
    obtain ⟨i, d⟩ := hd
    simp only [List.cons_append, buildColumns] at h
    cases hpd : planDayResult w d custom useCov (G i) with
    | error e =>
      simp only [hpd] at h
      exact absurd h (by simp)
    | ok r1 =>
      simp only [hpd] at h
      cases hda : dfAssign cols d
          (Cell.num (calculate_mean_difficulty w.df r1.1) :: r1.1.map Cell.str) with
      | error e =>
        simp only [hda] at h
        exact absurd h (by simp)
      | ok cols2 =>
        simp only [hda] at h
        exact ih p cols2 r1.2 out r h hp

/-- C10: in every `generate_workout_plan` call (any nonempty list of
difficulty levels, in particular any call with multiple levels), the
single `information` label column of the returned table is exactly the
label list recomputed from the last level's selections — the per-day
label list is overwritten on each loop iteration, so earlier levels'
columns carry the final level's row labels, not their own. -/
theorem information_from_last_day (w : WorkoutGenerator) (days : List Rat)
    (custom : Option (List (String × Int))) (useCov save : Bool)
    (G : Nat → Nat → Oracle) (disk : Except String Unit) (plan : Plan)
    (exs2 info2 : List String) (hne : days ≠ [])
    (h : generate_workout_plan w days custom useCov save G disk = .ok plan)
    (h2 : planDayResult w (days.getLast hne) custom useCov (G (days.length - 1))
      = .ok (exs2, info2)) :
    plan.information = info2 := by
  obtain ⟨cols, info, hbc, hinfo, -⟩ := generate_ok_elim h
  have henne : days.enum ≠ [] := by
    intro hnil
    apply hne
    apply List.length_eq_zero.mp
    rw [← List.enum_length, hnil, List.length_nil]
  have hlast : (days.enum).getLast henne = (days.length - 1, days.getLast hne) := by
    rw [List.getLast_eq_getElem, List.getLast_eq_getElem]
    simp only [List.enum_length]
    exact List.getElem_enum _ _ _
  rw [← List.dropLast_append_getLast henne, hlast] at hbc
  have hfin := buildColumns_last_info w custom useCov G days.enum.dropLast
    (days.length - 1, days.getLast hne) [] [] (cols, info) (exs2, info2) hbc h2
  exact hinfo.trans hfin

/-- The three-record two-area catalog of the C10 witness: two Legs
exercises and one Arms exercise. -/
def W10 : WorkoutGenerator :=
  ⟨[⟨"A", "Legs", 1⟩, ⟨"B", "Legs", 3⟩, ⟨"C", "Arms", 3⟩]⟩

/-- A day-dependent oracle family: day 0 selects A for Legs and fills
with A and C, day 1 selects B for Legs and fills with C and B, so the
two days produce different label lists. -/
def G10 : Nat → Nat → Oracle := fun day _ _ slot =>
  if day = 0 then (if slot = 3 then 2 else 0) else (if slot = 2 then 2 else 1)

theorem W10_mean0 : calculate_mean_difficulty W10.df ["A", "C"] = 2 := by
  unfold calculate_mean_difficulty
  rw [if_neg (by decide), if_neg (by decide)]
  rw [show (W10.df.filter fun rec =>
      (((["A", "C"] : List String)).filter fun e => e != "").contains rec.exercise)
      = [⟨"A", "Legs", 1⟩, ⟨"C", "Arms", 3⟩] from rfl]
  unfold ratMean
  norm_num

theorem W10_mean1 : calculate_mean_difficulty W10.df ["C", "B"] = 3 := by
  unfold calculate_mean_difficulty
  rw [if_neg (by decide), if_neg (by decide)]
  rw [show (W10.df.filter fun rec =>
      (((["C", "B"] : List String)).filter fun e => e != "").contains rec.exercise)
      = [⟨"B", "Legs", 3⟩, ⟨"C", "Arms", 3⟩] from rfl]
  unfold ratMean
  norm_num

/-- The table built by the witness run on `W10`: day 1 selects `[A, C]`
(labels Legs, Arms), day 2 selects `[C, B]` (labels Arms, Legs), and the
information column keeps only the second day's labels. -/
def P10 : Plan :=
  ⟨["mean", "Arms", "Legs"],
   [(1, [Cell.num 2, Cell.str "A", Cell.str "C"]),
    (2, [Cell.num 3, Cell.str "C", Cell.str "B"])]⟩

set_option maxRecDepth 4000000 in
/-- The witness run on `W10`: both coverage loops exhaust (four slots,
only three distinct names), each day falls back to its own per-area
picks, and the built table is `P10`. -/
theorem W10_plan_eval :
    generate_workout_plan W10 [1, 2] none true false G10 (.ok ()) = .ok P10 := by
  have hsymb : generate_workout_plan W10 [1, 2] none true false G10 (.ok ()) =
      .ok ⟨["mean", "Arms", "Legs"],
        [(1, [Cell.num (calculate_mean_difficulty W10.df ["A", "C"]),
              Cell.str "A", Cell.str "C"]),
         (2, [Cell.num (calculate_mean_difficulty W10.df ["C", "B"]),
              Cell.str "C", Cell.str "B"])]⟩ := rfl
  rw [hsymb, W10_mean0, W10_mean1]
  rfl

set_option maxRecDepth 4000000 in
/-- The last (second) day's computation of the witness run on `W10`. -/
theorem W10_day2_eval :
    planDayResult W10 2 none true (G10 1)
      = .ok (["C", "B"], ["mean", "Arms", "Legs"]) := rfl

/-- C10 witness: the information column of `P10` is the second day's
label list `[mean, Arms, Legs]` — not the first day's
`[mean, Legs, Arms]`. -/
theorem information_from_last_day_witness :
    P10.information = ["mean", "Arms", "Legs"] :=
  information_from_last_day W10 [1, 2] none true false G10 (.ok ()) P10
    ["C", "B"] ["mean", "Arms", "Legs"] (List.cons_ne_nil _ _)
    W10_plan_eval W10_day2_eval

end Workout
